/-
Verification of the cubic-spline engine of `Splines.py`
(classes `CSpline` and `CSpline_Clasica`).

The numerical data are embedded over `ℚ` (exact arithmetic, as the spec's
"in exact arithmetic" reading of the floating-point contract).  numpy
1-D arrays become `List ℚ`; `np.diff`, slicing, elementwise arithmetic
with numpy's length-1 broadcasting, `np.searchsorted`, `np.clip` and the
banded layout of `scipy.linalg.solve_banded` are each given a direct
definition below, annotated with the source line it translates.
-/
import Mathlib

namespace Splines

/-- `np.diff xs`: consecutive differences `xs[i+1] - xs[i]`. -/
def npdiff (xs : List ℚ) : List ℚ :=
  List.zipWith (fun b a => b - a) xs.tail xs

/-- Multiplication of an array by a scalar (numpy `c * xs`). -/
def scalarMul (c : ℚ) (xs : List ℚ) : List ℚ :=
  xs.map (fun v => c * v)

/-- Elementwise square (numpy `xs ** 2`). -/
def npsq (xs : List ℚ) : List ℚ :=
  xs.map (fun v => v ^ 2)

/-- numpy elementwise binary operation on two 1-D arrays, with numpy's
broadcasting rule: equal lengths operate elementwise; a length-1 operand
is broadcast against the other; any other combination is a numpy
`ValueError` (modelled as `none`). -/
def bop (f : ℚ → ℚ → ℚ) (a b : List ℚ) : Option (List ℚ) :=
  if a.length = b.length then some (List.zipWith f a b)
  else if a.length = 1 then some (b.map (fun v => f (a.getD 0 0) v))
  else if b.length = 1 then some (a.map (fun v => f v (b.getD 0 0)))
  else none

/-- The state of a constructed `CSpline` object: the arrays stored by
`CSpline.__init__` (`self.xi`, `self.yi`, `self.si`, `self.ai`, `self.bi`). -/
structure CSpline where
  xi : List ℚ
  yi : List ℚ
  si : List ℚ
  ai : List ℚ
  bi : List ℚ
deriving DecidableEq, Repr

/-- `CSpline.__init__(xi, yi, si)` (Splines.py lines 30-39):

    dx = np.diff(self.xi); dy = np.diff(self.yi)
    self.ai = (3*dy/dx - self.si[1:] - 2*self.si[:-1]) / dx
    self.bi = (self.si[1:] + self.si[:-1] - 2*dy/dx) / dx**2

The constructor performs no validation; the only possible failure is a
numpy broadcasting error in the elementwise arithmetic (`none`). -/
def CSpline.make (xi yi si : List ℚ) : Option CSpline := do
  let dx := npdiff xi
  let dy := npdiff yi
  let t1 ← bop (fun a b => a / b) (scalarMul 3 dy) dx      -- 3*dy/dx
  let t2 ← bop (fun a b => a - b) t1 si.tail                -- ... - si[1:]
  let t3 ← bop (fun a b => a - b) t2 (scalarMul 2 si.dropLast)  -- ... - 2*si[:-1]
  let ai ← bop (fun a b => a / b) t3 dx                     -- ... / dx
  let u1 ← bop (fun a b => a + b) si.tail si.dropLast       -- si[1:] + si[:-1]
  let u2 ← bop (fun a b => a / b) (scalarMul 2 dy) dx       -- 2*dy/dx
  let u3 ← bop (fun a b => a - b) u1 u2                     -- ... - ...
  let bi ← bop (fun a b => a / b) u3 (npsq dx)              -- ... / dx**2
  return ⟨xi, yi, si, ai, bi⟩

/-- `np.searchsorted(xs, q, side="right")` on a sorted array: the
insertion point after any entries equal to `q`, i.e. the number of
elements `≤ q`.  (The spec lists the binary-search primitive as an
external collaborator; on sorted input this is its exact contract.) -/
def ssRight (xs : List ℚ) (q : ℚ) : ℕ :=
  xs.countP (fun a => decide (a ≤ q))

/-- `np.clip(v, lo, hi)` on integers (for `lo ≤ hi`). -/
def npclip (v lo hi : ℤ) : ℤ := min (max v lo) hi

/-- The segment index computed by `CSpline.__call__` (lines 46-50):
`i = np.searchsorted(self.xi, x, side="right") - 1` then
`i = np.clip(i, 0, self.xi.size - 2)`. -/
def segIdx (xs : List ℚ) (q : ℚ) : ℕ :=
  (npclip ((ssRight xs q : ℤ) - 1) 0 ((xs.length : ℤ) - 2)).toNat

/-- The Horner-form cubic of segment `i` as returned by `CSpline.__call__`
(line 52-54): `dx = x - xi[i]`, then
`yi[i] + dx*(si[i] + dx*(ai[i] + dx*bi[i]))`. -/
def CSpline.segHorner (S : CSpline) (i : ℕ) (q : ℚ) : ℚ :=
  let dx := q - S.xi.getD i 0
  S.yi.getD i 0 + dx * (S.si.getD i 0 + dx * (S.ai.getD i 0 + dx * S.bi.getD i 0))

/-- Scalar evaluation `CSpline.__call__(x)` (lines 42-54). -/
def CSpline.eval (S : CSpline) (q : ℚ) : ℚ :=
  S.segHorner (segIdx S.xi q) q

/-- The segment cubic in the form of the docstring (line 11):
`pi(x) = yi + si (x-xi) + ai (x-xi)**2 + bi (x-xi)**3`. -/
def CSpline.segPoly (S : CSpline) (i : ℕ) (x : ℚ) : ℚ :=
  S.yi.getD i 0 + S.si.getD i 0 * (x - S.xi.getD i 0)
    + S.ai.getD i 0 * (x - S.xi.getD i 0) ^ 2
    + S.bi.getD i 0 * (x - S.xi.getD i 0) ^ 3

/-- First derivative of the segment cubic. -/
def CSpline.segPolyDeriv (S : CSpline) (i : ℕ) (x : ℚ) : ℚ :=
  S.si.getD i 0 + 2 * S.ai.getD i 0 * (x - S.xi.getD i 0)
    + 3 * S.bi.getD i 0 * (x - S.xi.getD i 0) ^ 2

/-- Second derivative of the segment cubic. -/
def CSpline.segPolySecond (S : CSpline) (i : ℕ) (x : ℚ) : ℚ :=
  2 * S.ai.getD i 0 + 6 * S.bi.getD i 0 * (x - S.xi.getD i 0)

/-! ### The tridiagonal system assembled by `CSpline_Clasica.__init__`
(Splines.py lines 83-113).

`scipy.linalg.solve_banded((1, 1), A, p)` reads the banded storage `A`
(shape 3 × N) as: `A[0][j]` is matrix entry `(j-1, j)` (super-diagonal),
`A[1][j]` is entry `(j, j)` (main diagonal), `A[2][j]` is entry
`(j+1, j)` (sub-diagonal).  The three rows are assembled by slice
assignment into an array of zeros; each list below is that final array. -/

namespace CSpline_Clasica

/-- Row `A[0]` (super-diagonal storage): `A[0,1] = 1.0; A[0,2:] = dx[:-1]`
(entry `A[0,0]` stays `0`, unused by the solver). -/
def A0 (xi : List ℚ) : List ℚ :=
  0 :: 1 :: (npdiff xi).dropLast

/-- Row `A[1]` (main diagonal):
`A[1,0] = 2.0; A[1,1:-1] = 2.0*(dx[:-1] + dx[1:]); A[1,-1] = 2.0`. -/
def A1 (xi : List ℚ) : List ℚ :=
  2 :: (List.zipWith (fun a b => 2 * (a + b)) (npdiff xi).dropLast (npdiff xi).tail ++ [2])

/-- Row `A[2]` (sub-diagonal storage): `A[2,-2] = 1.0; A[2,:-2] = dx[1:]`
(entry `A[2,-1]` stays `0`, unused by the solver; the two assigned
regions do not overlap, so assignment order does not matter). -/
def A2 (xi : List ℚ) : List ℚ :=
  (npdiff xi).tail ++ [1, 0]

/-- The right-hand side after `p[:-1] = 3*dy/dx; p[-1] = p[-2]`
(lines 106-109), before the interior update of line 110. -/
def p0 (xi yi : List ℚ) : List ℚ :=
  let q := List.zipWith (fun a b => 3 * a / b) (npdiff yi) (npdiff xi)
  q ++ [q.getLastD 0]

/-- The final right-hand side, after
`p[1:-1] = p[1:-1]*dx[:-1] + p[:-2]*dx[1:]` (line 110; numpy evaluates
the right-hand side from the pre-update `p`). -/
def p (xi yi : List ℚ) : List ℚ :=
  (List.range (p0 xi yi).length).map (fun k =>
    if 1 ≤ k ∧ k ≤ (p0 xi yi).length - 2 then
      (p0 xi yi).getD k 0 * (npdiff xi).getD (k - 1) 0
        + (p0 xi yi).getD (k - 1) 0 * (npdiff xi).getD k 0
    else (p0 xi yi).getD k 0)

end CSpline_Clasica

/-- The exact-solution contract of `scipy.linalg.solve_banded((1,1), A, p)`:
`s` solves the banded system, i.e. it has the right length and for every
row `k`, `A[2][k-1]*s[k-1] + A[1][k]*s[k] + A[0][k+1]*s[k+1] = p[k]`
(the sub- and super-diagonal terms being absent on the first and last
row respectively). -/
def SolvesTridiag (a0 a1 a2 rhs s : List ℚ) : Prop :=
  s.length = rhs.length ∧
  ∀ k, k < rhs.length →
    (if k = 0 then 0 else a2.getD (k - 1) 0 * s.getD (k - 1) 0)
      + a1.getD k 0 * s.getD k 0
      + (if k + 1 = rhs.length then 0 else a0.getD (k + 1) 0 * s.getD (k + 1) 0)
      = rhs.getD k 0

instance (a0 a1 a2 rhs s : List ℚ) : Decidable (SolvesTridiag a0 a1 a2 rhs s) := by
  unfold SolvesTridiag; infer_instance

/-! ### Vectorized evaluation (`CSpline.__call__` on an array argument).

A numpy `ndarray` is a shape together with a flat data buffer; every
operation in `__call__` (`searchsorted`, the subtraction, `clip`, fancy
indexing `self.xi[i]`, and the Horner arithmetic) acts elementwise on the
buffer and passes the shape through unchanged. -/

/-- A numpy n-dimensional array of rationals: a shape and the flat
row-major data buffer. -/
structure NDArr where
  shape : List ℕ
  data : List ℚ
deriving DecidableEq, Repr

/-- The flat-buffer pipeline of `CSpline.__call__` on a batch of query
points: vectorized `searchsorted`+`clip` (lines 46-50), vectorized
`dx = x - self.xi[i]` (line 52), vectorized Horner combination (line 54). -/
def CSpline.evalVec (S : CSpline) (qs : List ℚ) : List ℚ :=
  let is := qs.map (fun q => segIdx S.xi q)
  let dxs := List.zipWith (fun q i => q - S.xi.getD i 0) qs is
  List.zipWith
    (fun i dx => S.yi.getD i 0 + dx * (S.si.getD i 0 + dx * (S.ai.getD i 0 + dx * S.bi.getD i 0)))
    is dxs

/-- `CSpline.__call__` on an n-dimensional array: the elementwise pipeline
on the data buffer, shape passed through. -/
def CSpline.evalND (S : CSpline) (q : NDArr) : NDArr :=
  ⟨q.shape, S.evalVec q.data⟩

/-- A strictly increasing node sequence. -/
def StrictIncr (xs : List ℚ) : Prop :=
  List.Pairwise (fun a b => a < b) xs

instance (xs : List ℚ) : Decidable (StrictIncr xs) :=
  List.instDecidablePairwise xs

/-! ### Basic lemmas about the embedding -/

lemma getD_of_lt (l : List ℚ) {i : ℕ} (h : i < l.length) : l.getD i 0 = l[i] := by
  simp [List.getD_eq_getElem?_getD, List.getElem?_eq_getElem h]

lemma length_npdiff (xs : List ℚ) : (npdiff xs).length = xs.length - 1 := by
  simp [npdiff]

lemma npdiff_getElem (xs : List ℚ) {i : ℕ} (h : i < (npdiff xs).length) :
    (npdiff xs)[i] = xs.getD (i + 1) 0 - xs.getD i 0 := by
  have hlen : i + 1 < xs.length := by
    have := length_npdiff xs; omega
  rw [getD_of_lt _ hlen, getD_of_lt _ (by omega : i < xs.length)]
  simp [npdiff, List.getElem_zipWith]

lemma npdiff_getD (xs : List ℚ) {i : ℕ} (h : i + 1 < xs.length) :
    (npdiff xs).getD i 0 = xs.getD (i + 1) 0 - xs.getD i 0 := by
  have hi : i < (npdiff xs).length := by rw [length_npdiff]; omega
  rw [getD_of_lt _ hi, npdiff_getElem xs hi]

lemma bop_of_length_eq {f : ℚ → ℚ → ℚ} {a b : List ℚ} (h : a.length = b.length) :
    bop f a b = some (List.zipWith f a b) := by
  simp [bop, h]

lemma length_scalarMul (c : ℚ) (xs : List ℚ) : (scalarMul c xs).length = xs.length := by
  simp [scalarMul]

lemma length_npsq (xs : List ℚ) : (npsq xs).length = xs.length := by
  simp [npsq]

lemma strictIncr_getElem_lt {xs : List ℚ} (hx : StrictIncr xs) {i j : ℕ}
    (hij : i < j) (hj : j < xs.length) : xs[i] < xs[j] :=
  List.pairwise_iff_getElem.mp hx i j (by omega) hj hij

lemma strictIncr_getD_lt {xs : List ℚ} (hx : StrictIncr xs) {i j : ℕ}
    (hij : i < j) (hj : j < xs.length) : xs.getD i 0 < xs.getD j 0 := by
  rw [getD_of_lt _ (by omega : i < xs.length), getD_of_lt _ hj]
  exact strictIncr_getElem_lt hx hij hj

/-- On a strictly increasing list, the right-insertion point of the `i`-th
element is `i + 1`. -/
lemma ssRight_node {xs : List ℚ} (hx : StrictIncr xs) {i : ℕ} (h : i < xs.length) :
    ssRight xs (xs.getD i 0) = i + 1 := by
  unfold ssRight
  rw [getD_of_lt _ h]
  have hsplit : xs.countP (fun a => decide (a ≤ xs[i])) =
      (List.take (i + 1) xs).countP (fun a => decide (a ≤ xs[i]))
        + (List.drop (i + 1) xs).countP (fun a => decide (a ≤ xs[i])) := by
    rw [← List.countP_append, List.take_append_drop]
  have htake : (List.take (i + 1) xs).countP (fun a => decide (a ≤ xs[i])) =
      (List.take (i + 1) xs).length := by
    rw [List.countP_eq_length]
    intro a ha
    rcases List.mem_iff_getElem.mp ha with ⟨j, hj, rfl⟩
    have hjlen : j < xs.length := by
      have := List.length_take (i + 1) xs; omega
    rw [List.getElem_take]
    have hji : j ≤ i := by
      have := List.length_take (i + 1) xs; omega
    rcases Nat.lt_or_ge j i with hlt | hge
    · simpa using le_of_lt (strictIncr_getElem_lt hx hlt h)
    · have : j = i := by omega
      subst this; simp
  have hdrop : (List.drop (i + 1) xs).countP (fun a => decide (a ≤ xs[i])) = 0 := by
    rw [List.countP_eq_zero]
    intro a ha
    rcases List.mem_iff_getElem.mp ha with ⟨j, hj, rfl⟩
    have hjlen : i + 1 + j < xs.length := by
      have := List.length_drop (i + 1) xs; omega
    rw [List.getElem_drop]
    have : xs[i] < xs[i + 1 + j] := strictIncr_getElem_lt hx (by omega) hjlen
    simpa using not_le.mpr this
  rw [hsplit, htake, hdrop, List.length_take]
  omega

/-- Queries below the first node have right-insertion point `0`. -/
lemma ssRight_of_lt_head {xs : List ℚ} (hx : StrictIncr xs) (h0 : 0 < xs.length)
    {q : ℚ} (hq : q < xs.getD 0 0) : ssRight xs q = 0 := by
  unfold ssRight
  rw [List.countP_eq_zero]
  intro a ha
  rcases List.mem_iff_getElem.mp ha with ⟨j, hj, rfl⟩
  have : xs.getD 0 0 ≤ xs[j] := by
    rcases Nat.eq_zero_or_pos j with rfl | hpos
    · rw [getD_of_lt _ hj]
    · rw [getD_of_lt _ h0]
      exact le_of_lt (strictIncr_getElem_lt hx hpos hj)
  simpa using not_le.mpr (lt_of_lt_of_le hq this)

/-- Queries at or above the last node have right-insertion point `length`. -/
lemma ssRight_of_ge_last {xs : List ℚ} (hx : StrictIncr xs) (h0 : 0 < xs.length)
    {q : ℚ} (hq : xs.getD (xs.length - 1) 0 ≤ q) : ssRight xs q = xs.length := by
  unfold ssRight
  rw [List.countP_eq_length]
  intro a ha
  rcases List.mem_iff_getElem.mp ha with ⟨j, hj, rfl⟩
  have hle : xs[j] ≤ xs.getD (xs.length - 1) 0 := by
    rw [getD_of_lt _ (by omega : xs.length - 1 < xs.length)]
    rcases Nat.lt_or_ge j (xs.length - 1) with hlt | hge
    · exact le_of_lt (strictIncr_getElem_lt hx hlt (by omega))
    · have : j = xs.length - 1 := by omega
      subst this; rfl
  simpa using le_trans hle hq

lemma segIdx_le {xs : List ℚ} (h2 : 2 ≤ xs.length) (q : ℚ) :
    segIdx xs q ≤ xs.length - 2 := by
  unfold segIdx npclip
  have : min (max ((ssRight xs q : ℤ) - 1) 0) ((xs.length : ℤ) - 2) ≤ (xs.length : ℤ) - 2 :=
    min_le_right _ _
  omega

/-- Segment lookup at node `i` gives `min i (N-2)`. -/
lemma segIdx_node {xs : List ℚ} (hx : StrictIncr xs) (h2 : 2 ≤ xs.length)
    {i : ℕ} (h : i < xs.length) :
    segIdx xs (xs.getD i 0) = min i (xs.length - 2) := by
  unfold segIdx npclip
  rw [ssRight_node hx h]
  omega

lemma segIdx_of_lt_head {xs : List ℚ} (hx : StrictIncr xs) (h2 : 2 ≤ xs.length)
    {q : ℚ} (hq : q < xs.getD 0 0) : segIdx xs q = 0 := by
  unfold segIdx npclip
  rw [ssRight_of_lt_head hx (by omega) hq]
  omega

/-- Unfolding of `CSpline.make` on equal-length inputs: construction
succeeds, stores the three input arrays unchanged, and the coefficient
arrays have length `N - 1` and obey the closed-form formulas of
Splines.py lines 38-39. -/
lemma make_spec {xi yi si : List ℚ} (hy : yi.length = xi.length)
    (hs : si.length = xi.length) :
    ∃ S : CSpline, CSpline.make xi yi si = some S ∧
      S.xi = xi ∧ S.yi = yi ∧ S.si = si ∧
      S.ai.length = xi.length - 1 ∧ S.bi.length = xi.length - 1 ∧
      ∀ i, i + 1 < xi.length →
        (S.ai.getD i 0 =
          (3 * (yi.getD (i + 1) 0 - yi.getD i 0) / (xi.getD (i + 1) 0 - xi.getD i 0)
            - si.getD (i + 1) 0 - 2 * si.getD i 0) / (xi.getD (i + 1) 0 - xi.getD i 0)) ∧
        (S.bi.getD i 0 =
          (si.getD (i + 1) 0 + si.getD i 0
            - 2 * (yi.getD (i + 1) 0 - yi.getD i 0) / (xi.getD (i + 1) 0 - xi.getD i 0))
            / (xi.getD (i + 1) 0 - xi.getD i 0) ^ 2) := by
  set AI : List ℚ := List.zipWith (fun a b => a / b)
      (List.zipWith (fun a b => a - b)
        (List.zipWith (fun a b => a - b)
          (List.zipWith (fun a b => a / b) (scalarMul 3 (npdiff yi)) (npdiff xi))
          si.tail)
        (scalarMul 2 si.dropLast))
      (npdiff xi) with hAI
  set BI : List ℚ := List.zipWith (fun a b => a / b)
      (List.zipWith (fun a b => a - b)
        (List.zipWith (fun a b => a + b) si.tail si.dropLast)
        (List.zipWith (fun a b => a / b) (scalarMul 2 (npdiff yi)) (npdiff xi)))
      (npsq (npdiff xi)) with hBI
  have hmk : CSpline.make xi yi si = some ⟨xi, yi, si, AI, BI⟩ := by
    unfold CSpline.make
    rw [bop_of_length_eq (by simp [length_scalarMul, length_npdiff, hy, hs])]
    simp only [Option.bind_eq_bind, Option.some_bind]
    rw [bop_of_length_eq (by simp [length_scalarMul, length_npdiff, hy, hs])]
    simp only [Option.some_bind]
    rw [bop_of_length_eq (by simp [length_scalarMul, length_npdiff, hy, hs])]
    simp only [Option.some_bind]
    rw [bop_of_length_eq (by simp [length_scalarMul, length_npdiff, hy, hs])]
    simp only [Option.some_bind]
    rw [bop_of_length_eq (by simp [length_scalarMul, length_npdiff, hy, hs])]
    simp only [Option.some_bind]
    rw [bop_of_length_eq (by simp [length_scalarMul, length_npdiff, hy, hs])]
    simp only [Option.some_bind]
    rw [bop_of_length_eq (by simp [length_scalarMul, length_npdiff, hy, hs])]
    simp only [Option.some_bind]
    rw [bop_of_length_eq (by simp [length_npsq, length_scalarMul, length_npdiff, hy, hs])]
    simp only [Option.some_bind]
    rfl
  have hAIlen : AI.length = xi.length - 1 := by
    simp [hAI, length_scalarMul, length_npdiff, hy, hs]
  have hBIlen : BI.length = xi.length - 1 := by
    simp [hBI, length_npsq, length_scalarMul, length_npdiff, hy, hs]
  refine ⟨⟨xi, yi, si, AI, BI⟩, hmk, rfl, rfl, rfl, hAIlen, hBIlen, ?_⟩
  intro i hi
  have hiA : i < AI.length := by omega
  have hiB : i < BI.length := by omega
  have hxi1 : i + 1 < xi.length := hi
  have hyi1 : i + 1 < yi.length := by omega
  have hsi1 : i + 1 < si.length := by omega
  constructor
  · show AI.getD i 0 = _
    rw [getD_of_lt _ hiA,
      getD_of_lt xi hxi1, getD_of_lt xi (by omega : i < xi.length),
      getD_of_lt yi hyi1, getD_of_lt yi (by omega : i < yi.length),
      getD_of_lt si hsi1, getD_of_lt si (by omega : i < si.length)]
    simp [hAI, List.getElem_zipWith, List.getElem_map, scalarMul, npdiff,
      List.getElem_tail, List.getElem_dropLast]
  · show BI.getD i 0 = _
    rw [getD_of_lt _ hiB,
      getD_of_lt xi hxi1, getD_of_lt xi (by omega : i < xi.length),
      getD_of_lt yi hyi1, getD_of_lt yi (by omega : i < yi.length),
      getD_of_lt si hsi1, getD_of_lt si (by omega : i < si.length)]
    simp [hBI, List.getElem_zipWith, List.getElem_map, scalarMul, npsq, npdiff,
      List.getElem_tail, List.getElem_dropLast]

lemma segIdx_of_ge_last {xs : List ℚ} (hx : StrictIncr xs) (h2 : 2 ≤ xs.length)
    {q : ℚ} (hq : xs.getD (xs.length - 1) 0 ≤ q) : segIdx xs q = xs.length - 2 := by
  unfold segIdx npclip
  rw [ssRight_of_ge_last hx (by omega) hq]
  omega

/-! ### Entries of the assembled tridiagonal system -/

namespace CSpline_Clasica

lemma length_A0 {xi : List ℚ} (h2 : 2 ≤ xi.length) : (A0 xi).length = xi.length := by
  simp [A0, length_npdiff]
  omega

lemma length_A1 {xi : List ℚ} (h2 : 2 ≤ xi.length) : (A1 xi).length = xi.length := by
  simp [A1, length_npdiff]
  omega

lemma length_A2 {xi : List ℚ} (h2 : 2 ≤ xi.length) : (A2 xi).length = xi.length := by
  simp [A2, length_npdiff]
  omega

lemma length_p0 {xi yi : List ℚ} (hy : yi.length = xi.length) (h2 : 2 ≤ xi.length) :
    (p0 xi yi).length = xi.length := by
  simp [p0, length_npdiff, hy]
  omega

lemma length_p {xi yi : List ℚ} (hy : yi.length = xi.length) (h2 : 2 ≤ xi.length) :
    (p xi yi).length = xi.length := by
  simp [p, length_p0 hy h2]

lemma p0_getD {xi yi : List ℚ} (hy : yi.length = xi.length) {k : ℕ}
    (hk : k + 1 < xi.length) :
    (p0 xi yi).getD k 0 =
      3 * (yi.getD (k + 1) 0 - yi.getD k 0) / (xi.getD (k + 1) 0 - xi.getD k 0) := by
  have hq : k < (List.zipWith (fun a b => 3 * a / b) (npdiff yi) (npdiff xi)).length := by
    simp [length_npdiff, hy]; omega
  have hlen : k < (p0 xi yi).length := by
    simp only [p0, List.length_append, List.length_cons, List.length_nil]
    omega
  rw [getD_of_lt _ hlen]
  unfold p0
  rw [List.getElem_append_left hq, List.getElem_zipWith,
    npdiff_getElem yi (by simp [length_npdiff]; omega),
    npdiff_getElem xi (by simp [length_npdiff]; omega)]

lemma p0_getD_last {xi yi : List ℚ} (hy : yi.length = xi.length) (h2 : 2 ≤ xi.length) :
    (p0 xi yi).getD (xi.length - 1) 0 =
      3 * (yi.getD (xi.length - 1) 0 - yi.getD (xi.length - 2) 0)
        / (xi.getD (xi.length - 1) 0 - xi.getD (xi.length - 2) 0) := by
  have hqlen : (List.zipWith (fun a b => 3 * a / b) (npdiff yi) (npdiff xi)).length
      = xi.length - 1 := by
    simp [length_npdiff, hy]
  have hlen : xi.length - 1 < (p0 xi yi).length := by
    rw [length_p0 hy h2]; omega
  rw [getD_of_lt _ hlen]
  unfold p0
  rw [List.getElem_append_right (by omega)]
  simp only [hqlen, Nat.sub_self, List.getElem_cons_zero, List.getLastD_eq_getLast?,
    List.getLast?_eq_getElem?]
  have e0 : xi.length - 1 - 1 = xi.length - 2 := by omega
  rw [e0]
  have hq2 : xi.length - 2
      < (List.zipWith (fun a b => 3 * a / b) (npdiff yi) (npdiff xi)).length := by
    rw [hqlen]; omega
  rw [List.getElem?_eq_getElem hq2]
  simp only [Option.getD_some]
  rw [List.getElem_zipWith]
  rw [npdiff_getElem yi (by simp [length_npdiff]; omega),
    npdiff_getElem xi (by simp [length_npdiff]; omega)]
  have e2 : xi.length - 2 + 1 = xi.length - 1 := by omega
  rw [e2]

lemma p_getD {xi yi : List ℚ} (hy : yi.length = xi.length) (h2 : 2 ≤ xi.length)
    {j : ℕ} (hj : j < xi.length) :
    (p xi yi).getD j 0 =
      if 1 ≤ j ∧ j ≤ xi.length - 2 then
        (p0 xi yi).getD j 0 * (npdiff xi).getD (j - 1) 0
          + (p0 xi yi).getD (j - 1) 0 * (npdiff xi).getD j 0
      else (p0 xi yi).getD j 0 := by
  have hlen : j < (p xi yi).length := by rw [length_p hy h2]; exact hj
  rw [getD_of_lt _ hlen]
  unfold p
  rw [List.getElem_map, List.getElem_range, length_p0 hy h2]

lemma A1_getD_zero (xi : List ℚ) : (A1 xi).getD 0 0 = 2 := rfl

lemma A0_getD_one (xi : List ℚ) : (A0 xi).getD 1 0 = 1 := rfl

lemma A2_getD_last {xi : List ℚ} (h2 : 2 ≤ xi.length) :
    (A2 xi).getD (xi.length - 2) 0 = 1 := by
  have htl : (npdiff xi).tail.length = xi.length - 2 := by
    simp [length_npdiff]; omega
  have hlen : xi.length - 2 < (A2 xi).length := by rw [length_A2 h2]; omega
  rw [getD_of_lt _ hlen]
  unfold A2
  rw [List.getElem_append_right (by omega)]
  simp [htl]

lemma A1_getD_last {xi : List ℚ} (h2 : 2 ≤ xi.length) :
    (A1 xi).getD (xi.length - 1) 0 = 2 := by
  have hzl : (List.zipWith (fun a b => 2 * (a + b)) (npdiff xi).dropLast
      (npdiff xi).tail).length = xi.length - 2 := by
    simp [length_npdiff]; omega
  have e1 : xi.length - 1 = (xi.length - 2) + 1 := by omega
  rw [e1]
  unfold A1
  rw [List.getD_cons_succ]
  have hlen : xi.length - 2 < (List.zipWith (fun a b => 2 * (a + b)) (npdiff xi).dropLast
      (npdiff xi).tail ++ [2]).length := by
    simp [hzl]
  rw [getD_of_lt _ hlen, List.getElem_append_right (by omega)]
  simp [hzl]

lemma A1_getD_interior {xi : List ℚ} (h2 : 2 ≤ xi.length) {k : ℕ}
    (h1 : 1 ≤ k) (hk : k ≤ xi.length - 2) :
    (A1 xi).getD k 0 =
      2 * ((xi.getD k 0 - xi.getD (k - 1) 0) + (xi.getD (k + 1) 0 - xi.getD k 0)) := by
  have hzl : (List.zipWith (fun a b => 2 * (a + b)) (npdiff xi).dropLast
      (npdiff xi).tail).length = xi.length - 2 := by
    simp [length_npdiff]; omega
  have e1 : k = (k - 1) + 1 := by omega
  rw [e1]
  unfold A1
  rw [List.getD_cons_succ]
  have hk1 : k - 1 < (List.zipWith (fun a b => 2 * (a + b)) (npdiff xi).dropLast
      (npdiff xi).tail).length := by omega
  have hlen : k - 1 < (List.zipWith (fun a b => 2 * (a + b)) (npdiff xi).dropLast
      (npdiff xi).tail ++ [2]).length := by
    simp [hzl]; omega
  rw [getD_of_lt _ hlen, List.getElem_append_left hk1, List.getElem_zipWith]
  have hdl : k - 1 < (npdiff xi).dropLast.length := by
    simp [length_npdiff]; omega
  have htl : k - 1 < (npdiff xi).tail.length := by
    simp [length_npdiff]; omega
  rw [List.getElem_dropLast, List.getElem_tail,
    npdiff_getElem xi (by simp [length_npdiff]; omega),
    npdiff_getElem xi (by simp [length_npdiff]; omega)]
  have e2 : k - 1 + 1 = k := by omega
  rw [e2]

lemma A0_getD_interior {xi : List ℚ} (h2 : 2 ≤ xi.length) {k : ℕ}
    (h1 : 1 ≤ k) (hk : k ≤ xi.length - 2) :
    (A0 xi).getD (k + 1) 0 = xi.getD k 0 - xi.getD (k - 1) 0 := by
  have e1 : k + 1 = (k - 1) + 1 + 1 := by omega
  rw [e1]
  unfold A0
  rw [List.getD_cons_succ, List.getD_cons_succ]
  have hdl : k - 1 < (npdiff xi).dropLast.length := by
    simp [length_npdiff]; omega
  rw [getD_of_lt _ hdl, List.getElem_dropLast,
    npdiff_getElem xi (by simp [length_npdiff]; omega)]
  have e2 : k - 1 + 1 = k := by omega
  rw [e2]

lemma A2_getD_interior {xi : List ℚ} (h2 : 2 ≤ xi.length) {k : ℕ}
    (h1 : 1 ≤ k) (hk : k ≤ xi.length - 2) :
    (A2 xi).getD (k - 1) 0 = xi.getD (k + 1) 0 - xi.getD k 0 := by
  have htl : k - 1 < (npdiff xi).tail.length := by
    simp [length_npdiff]; omega
  have hlen : k - 1 < (A2 xi).length := by rw [length_A2 h2]; omega
  rw [getD_of_lt _ hlen]
  unfold A2
  rw [List.getElem_append_left htl, List.getElem_tail,
    npdiff_getElem xi (by simp [length_npdiff]; omega)]
  have e2 : k - 1 + 1 = k := by omega
  rw [e2]

/-- The assembled banded system, read back row by row: a slope vector of
the right length solves it exactly when the three families of row
equations hold. -/
lemma solves_iff_rows {xi yi si : List ℚ} (h2 : 2 ≤ xi.length)
    (hy : yi.length = xi.length) (hs : si.length = xi.length) :
    SolvesTridiag (A0 xi) (A1 xi) (A2 xi) (p xi yi) si ↔
      (2 * si.getD 0 0 + si.getD 1 0 =
        3 * (yi.getD 1 0 - yi.getD 0 0) / (xi.getD 1 0 - xi.getD 0 0)) ∧
      (∀ k, 1 ≤ k → k ≤ xi.length - 2 →
        (xi.getD (k + 1) 0 - xi.getD k 0) * si.getD (k - 1) 0
          + 2 * ((xi.getD k 0 - xi.getD (k - 1) 0) + (xi.getD (k + 1) 0 - xi.getD k 0))
              * si.getD k 0
          + (xi.getD k 0 - xi.getD (k - 1) 0) * si.getD (k + 1) 0
        = 3 * (yi.getD (k + 1) 0 - yi.getD k 0) / (xi.getD (k + 1) 0 - xi.getD k 0)
              * (xi.getD k 0 - xi.getD (k - 1) 0)
          + 3 * (yi.getD k 0 - yi.getD (k - 1) 0) / (xi.getD k 0 - xi.getD (k - 1) 0)
              * (xi.getD (k + 1) 0 - xi.getD k 0)) ∧
      (si.getD (xi.length - 2) 0 + 2 * si.getD (xi.length - 1) 0 =
        3 * (yi.getD (xi.length - 1) 0 - yi.getD (xi.length - 2) 0)
          / (xi.getD (xi.length - 1) 0 - xi.getD (xi.length - 2) 0)) := by
  constructor
  · rintro ⟨hlen, hrow⟩
    refine ⟨?_, ?_, ?_⟩
    · have h0 := hrow 0 (by rw [length_p hy h2]; omega)
      rw [length_p hy h2] at h0
      rw [if_pos rfl, if_neg (by omega : ¬ (0 + 1 = xi.length))] at h0
      rw [A1_getD_zero, A0_getD_one] at h0
      rw [p_getD hy h2 (by omega), if_neg (by omega)] at h0
      rw [p0_getD hy (by omega)] at h0
      linear_combination h0
    · intro k h1 hk
      have hki := hrow k (by rw [length_p hy h2]; omega)
      rw [length_p hy h2] at hki
      rw [if_neg (by omega : ¬ (k = 0)), if_neg (by omega : ¬ (k + 1 = xi.length))] at hki
      rw [A2_getD_interior h2 h1 hk, A1_getD_interior h2 h1 hk,
        A0_getD_interior h2 h1 hk] at hki
      rw [p_getD hy h2 (by omega), if_pos ⟨h1, hk⟩] at hki
      have ek : k - 1 + 1 = k := by omega
      rw [npdiff_getD xi (by omega : k - 1 + 1 < xi.length),
        npdiff_getD xi (by omega : k + 1 < xi.length),
        p0_getD hy (by omega : k + 1 < xi.length),
        p0_getD hy (by omega : k - 1 + 1 < xi.length), ek] at hki
      linear_combination hki
    · have hl := hrow (xi.length - 1) (by rw [length_p hy h2]; omega)
      rw [length_p hy h2] at hl
      rw [if_neg (by omega : ¬ (xi.length - 1 = 0)),
        if_pos (by omega : xi.length - 1 + 1 = xi.length)] at hl
      have e1 : xi.length - 1 - 1 = xi.length - 2 := by omega
      rw [e1, A2_getD_last h2, A1_getD_last h2] at hl
      rw [p_getD hy h2 (by omega), if_neg (by omega)] at hl
      rw [p0_getD_last hy h2] at hl
      linear_combination hl
  · rintro ⟨h0, hi, hl⟩
    refine ⟨by rw [length_p hy h2, hs], ?_⟩
    intro k hk
    rw [length_p hy h2] at hk ⊢
    rcases Nat.eq_zero_or_pos k with rfl | hpos
    · rw [if_pos rfl, if_neg (by omega : ¬ (0 + 1 = xi.length))]
      rw [A1_getD_zero, A0_getD_one]
      rw [p_getD hy h2 (by omega), if_neg (by omega)]
      rw [p0_getD hy (by omega)]
      linear_combination h0
    · rcases Nat.lt_or_ge k (xi.length - 1) with hklt | hkge
      · have h1 : 1 ≤ k := hpos
        have hk2 : k ≤ xi.length - 2 := by omega
        rw [if_neg (by omega : ¬ (k = 0)), if_neg (by omega : ¬ (k + 1 = xi.length))]
        rw [A2_getD_interior h2 h1 hk2, A1_getD_interior h2 h1 hk2,
          A0_getD_interior h2 h1 hk2]
        rw [p_getD hy h2 (by omega), if_pos ⟨h1, hk2⟩]
        have ek : k - 1 + 1 = k := by omega
        rw [npdiff_getD xi (by omega : k - 1 + 1 < xi.length),
          npdiff_getD xi (by omega : k + 1 < xi.length),
          p0_getD hy (by omega : k + 1 < xi.length),
          p0_getD hy (by omega : k - 1 + 1 < xi.length), ek]
        linear_combination hi k h1 hk2
      · have hke : k = xi.length - 1 := by omega
        subst hke
        rw [if_neg (by omega : ¬ (xi.length - 1 = 0)),
          if_pos (by omega : xi.length - 1 + 1 = xi.length)]
        have e1 : xi.length - 1 - 1 = xi.length - 2 := by omega
        rw [e1, A2_getD_last h2, A1_getD_last h2]
        rw [p_getD hy h2 (by omega), if_neg (by omega)]
        rw [p0_getD_last hy h2]
        linear_combination hl

end CSpline_Clasica

/-! ### Hermite-segment algebra (pure field identities over `ℚ`) -/

/-- Value of the Horner cubic at the far endpoint of a segment, with the
coefficient formulas of lines 38-39: it reproduces `y1`. -/
lemma hermite_horner (y0 y1 s0 s1 h : ℚ) (hh : h ≠ 0) :
    y0 + h * (s0 + h * ((3 * (y1 - y0) / h - s1 - 2 * s0) / h
      + h * ((s1 + s0 - 2 * (y1 - y0) / h) / h ^ 2))) = y1 := by
  field_simp
  ring

/-- Value of the power-form cubic at the far endpoint: it reproduces `y1`. -/
lemma hermite_poly_value (y0 y1 s0 s1 h : ℚ) (hh : h ≠ 0) :
    y0 + s0 * h + ((3 * (y1 - y0) / h - s1 - 2 * s0) / h) * h ^ 2
      + ((s1 + s0 - 2 * (y1 - y0) / h) / h ^ 2) * h ^ 3 = y1 := by
  field_simp
  ring

/-- Derivative of the power-form cubic at the far endpoint: it reproduces
`s1`. -/
lemma hermite_poly_deriv (y0 y1 s0 s1 h : ℚ) (hh : h ≠ 0) :
    s0 + 2 * ((3 * (y1 - y0) / h - s1 - 2 * s0) / h) * h
      + 3 * ((s1 + s0 - 2 * (y1 - y0) / h) / h ^ 2) * h ^ 2 = s1 := by
  field_simp
  ring

/-- Matching of second derivatives across an interior node, given the
interior row equation of the continuity system (pure field algebra). -/
lemma second_deriv_match (s0 s1 s2 D1 D2 h1 h2 : ℚ) (h1ne : h1 ≠ 0) (h2ne : h2 ≠ 0)
    (hrow : h2 * s0 + 2 * (h1 + h2) * s1 + h1 * s2 = 3 * D2 / h2 * h1 + 3 * D1 / h1 * h2) :
    2 * ((3 * D1 / h1 - s1 - 2 * s0) / h1) + 6 * ((s1 + s0 - 2 * D1 / h1) / h1 ^ 2) * h1
      = 2 * ((3 * D2 / h2 - s2 - 2 * s1) / h2) := by
  field_simp at hrow ⊢
  linear_combination 2 * h1 ^ 3 * hrow

/-! ### Claims -/

/-- C1: for every spline constructed by `CSpline` from equal-length
sequences `x` (strictly increasing, `N ≥ 2`), `y`, `s`, and for each node
index `i` in `0..N-1`, evaluating the spline at `x_i` returns `y_i`
exactly (exact arithmetic over `ℚ`). -/
theorem C1_eval_at_nodes {xi yi si : List ℚ} {S : CSpline}
    (hN : 2 ≤ xi.length) (hx : StrictIncr xi)
    (hy : yi.length = xi.length) (hs : si.length = xi.length)
    (hmk : CSpline.make xi yi si = some S) :
    ∀ i, i < xi.length → S.eval (xi.getD i 0) = yi.getD i 0 := by
  obtain ⟨S', hmk', hSxi, hSyi, hSsi, hal, hbl, hform⟩ := make_spec hy hs
  rw [hmk] at hmk'
  injection hmk' with hS
  subst hS
  intro i hi
  unfold CSpline.eval
  rw [hSxi, segIdx_node hx hN hi]
  rcases Nat.lt_or_ge i (xi.length - 1) with hlt | hge
  · have hmin : min i (xi.length - 2) = i := by omega
    rw [hmin]
    unfold CSpline.segHorner
    rw [hSxi, hSyi]
    simp
  · have hieq : i = xi.length - 1 := by omega
    subst hieq
    have hmin : min (xi.length - 1) (xi.length - 2) = xi.length - 2 := by omega
    rw [hmin]
    obtain ⟨hA, hB⟩ := hform (xi.length - 2) (by omega)
    have hj1 : xi.length - 2 + 1 = xi.length - 1 := by omega
    rw [hj1] at hA hB
    unfold CSpline.segHorner
    rw [hSxi, hSyi, hSsi, hA, hB]
    have hne : xi.getD (xi.length - 1) 0 - xi.getD (xi.length - 2) 0 ≠ 0 :=
      sub_ne_zero.mpr (ne_of_gt (strictIncr_getD_lt hx (by omega) (by omega)))
    exact hermite_horner _ _ _ _ _ hne

/-- Witness for C1 at `x = [0,1,2]`, `y = [0,1,0]`, `s = [3/2,0,-3/2]`. -/
theorem C1_eval_at_nodes_witness :
    StrictIncr [0, 1, 2] ∧
    ∀ i, i < ([0, 1, 2] : List ℚ).length →
      (⟨[0, 1, 2], [0, 1, 0], [3/2, 0, -3/2], [0, -3/2], [-1/2, 1/2]⟩ : CSpline).eval
          (([0, 1, 2] : List ℚ).getD i 0)
        = ([0, 1, 0] : List ℚ).getD i 0 :=
  ⟨by norm_num [StrictIncr],
   @C1_eval_at_nodes [0, 1, 2] [0, 1, 0] [3/2, 0, -3/2]
     ⟨[0, 1, 2], [0, 1, 0], [3/2, 0, -3/2], [0, -3/2], [-1/2, 1/2]⟩
     (by norm_num) (by norm_num [StrictIncr]) (by norm_num) (by norm_num)
     (by norm_num [CSpline.make, bop, npdiff, scalarMul, npsq])⟩

/-- C2: for every spline constructed by `CSpline` from equal-length
sequences `x` (strictly increasing, `N ≥ 2`), `y`, `s`, and for each
segment `i` in `0..N-2`, the cubic
`p_i(x) = y_i + s_i(x-x_i) + a_i(x-x_i)^2 + b_i(x-x_i)^3` built from the
stored coefficients satisfies the four Hermite endpoint conditions
`p_i(x_i) = y_i`, `p_i'(x_i) = s_i`, `p_i(x_{i+1}) = y_{i+1}`,
`p_i'(x_{i+1}) = s_{i+1}`. -/
theorem C2_hermite_conditions {xi yi si : List ℚ} {S : CSpline}
    (hN : 2 ≤ xi.length) (hx : StrictIncr xi)
    (hy : yi.length = xi.length) (hs : si.length = xi.length)
    (hmk : CSpline.make xi yi si = some S) :
    ∀ i, i + 1 < xi.length →
      S.segPoly i (xi.getD i 0) = yi.getD i 0 ∧
      S.segPolyDeriv i (xi.getD i 0) = si.getD i 0 ∧
      S.segPoly i (xi.getD (i + 1) 0) = yi.getD (i + 1) 0 ∧
      S.segPolyDeriv i (xi.getD (i + 1) 0) = si.getD (i + 1) 0 := by
  obtain ⟨S', hmk', hSxi, hSyi, hSsi, hal, hbl, hform⟩ := make_spec hy hs
  rw [hmk] at hmk'
  injection hmk' with hS
  subst hS
  intro i hi
  obtain ⟨hA, hB⟩ := hform i hi
  have hne : xi.getD (i + 1) 0 - xi.getD i 0 ≠ 0 :=
    sub_ne_zero.mpr (ne_of_gt (strictIncr_getD_lt hx (by omega) (by omega)))
  refine ⟨?_, ?_, ?_, ?_⟩
  · unfold CSpline.segPoly
    rw [hSxi, hSyi]
    simp
  · unfold CSpline.segPolyDeriv
    rw [hSxi, hSsi]
    simp
  · unfold CSpline.segPoly
    rw [hSxi, hSyi, hSsi, hA, hB]
    exact hermite_poly_value _ _ _ _ _ hne
  · unfold CSpline.segPolyDeriv
    rw [hSxi, hSsi, hA, hB]
    exact hermite_poly_deriv _ _ _ _ _ hne

/-- Witness for C2 at `x = [0,1,3]`, `y = [1,2,0]`, `s = [0,1,0]`. -/
theorem C2_hermite_conditions_witness :
    StrictIncr [0, 1, 3] ∧
    ∀ i, i + 1 < ([0, 1, 3] : List ℚ).length →
      (⟨[0, 1, 3], [1, 2, 0], [0, 1, 0], [2, -5/2], [-1, 3/4]⟩ : CSpline).segPoly i
          (([0, 1, 3] : List ℚ).getD i 0) = ([1, 2, 0] : List ℚ).getD i 0 ∧
      (⟨[0, 1, 3], [1, 2, 0], [0, 1, 0], [2, -5/2], [-1, 3/4]⟩ : CSpline).segPolyDeriv i
          (([0, 1, 3] : List ℚ).getD i 0) = ([0, 1, 0] : List ℚ).getD i 0 ∧
      (⟨[0, 1, 3], [1, 2, 0], [0, 1, 0], [2, -5/2], [-1, 3/4]⟩ : CSpline).segPoly i
          (([0, 1, 3] : List ℚ).getD (i + 1) 0) = ([1, 2, 0] : List ℚ).getD (i + 1) 0 ∧
      (⟨[0, 1, 3], [1, 2, 0], [0, 1, 0], [2, -5/2], [-1, 3/4]⟩ : CSpline).segPolyDeriv i
          (([0, 1, 3] : List ℚ).getD (i + 1) 0) = ([0, 1, 0] : List ℚ).getD (i + 1) 0 :=
  ⟨by norm_num [StrictIncr],
   @C2_hermite_conditions [0, 1, 3] [1, 2, 0] [0, 1, 0]
     ⟨[0, 1, 3], [1, 2, 0], [0, 1, 0], [2, -5/2], [-1, 3/4]⟩
     (by norm_num) (by norm_num [StrictIncr]) (by norm_num) (by norm_num)
     (by norm_num [CSpline.make, bop, npdiff, scalarMul, npsq])⟩

/-- C4: for every strictly increasing node sequence `x` and value
sequence `y` of equal length `N ≥ 2`, the tridiagonal system assembled by
`CSpline_Clasica` is exactly: row 0 is `2*s_0 + 1*s_1 = 3*dy_0/dx_0`;
each interior row `k` (`1 ≤ k ≤ N-2`) is
`dx_k*s_{k-1} + 2*(dx_{k-1}+dx_k)*s_k + dx_{k-1}*s_{k+1}
  = 3*(dy_{k-1}/dx_{k-1}*dx_k + dy_k/dx_k*dx_{k-1})`; and row `N-1` is
`1*s_{N-2} + 2*s_{N-1} = 3*dy_{N-2}/dx_{N-2}`, where
`dx_i = x_{i+1}-x_i`, `dy_i = y_{i+1}-y_i`. -/
theorem C4_assembled_rows {xi yi si : List ℚ}
    (hN : 2 ≤ xi.length) (hx : StrictIncr xi)
    (hy : yi.length = xi.length) (hs : si.length = xi.length) :
    SolvesTridiag (CSpline_Clasica.A0 xi) (CSpline_Clasica.A1 xi)
        (CSpline_Clasica.A2 xi) (CSpline_Clasica.p xi yi) si ↔
      (2 * si.getD 0 0 + 1 * si.getD 1 0 =
        3 * ((yi.getD 1 0 - yi.getD 0 0) / (xi.getD 1 0 - xi.getD 0 0))) ∧
      (∀ k, 1 ≤ k → k ≤ xi.length - 2 →
        (xi.getD (k + 1) 0 - xi.getD k 0) * si.getD (k - 1) 0
          + 2 * ((xi.getD k 0 - xi.getD (k - 1) 0) + (xi.getD (k + 1) 0 - xi.getD k 0))
              * si.getD k 0
          + (xi.getD k 0 - xi.getD (k - 1) 0) * si.getD (k + 1) 0
        = 3 * ((yi.getD k 0 - yi.getD (k - 1) 0) / (xi.getD k 0 - xi.getD (k - 1) 0)
                * (xi.getD (k + 1) 0 - xi.getD k 0)
              + (yi.getD (k + 1) 0 - yi.getD k 0) / (xi.getD (k + 1) 0 - xi.getD k 0)
                * (xi.getD k 0 - xi.getD (k - 1) 0))) ∧
      (1 * si.getD (xi.length - 2) 0 + 2 * si.getD (xi.length - 1) 0 =
        3 * ((yi.getD (xi.length - 1) 0 - yi.getD (xi.length - 2) 0)
          / (xi.getD (xi.length - 1) 0 - xi.getD (xi.length - 2) 0))) := by
  rw [CSpline_Clasica.solves_iff_rows hN hy hs]
  constructor
  · rintro ⟨h0, hi, hl⟩
    exact ⟨by linear_combination h0,
      fun k h1 hk => by linear_combination hi k h1 hk,
      by linear_combination hl⟩
  · rintro ⟨h0, hi, hl⟩
    exact ⟨by linear_combination h0,
      fun k h1 hk => by linear_combination hi k h1 hk,
      by linear_combination hl⟩

/-- Witness for C4 at `x = [0,1,2]`, `y = [0,1,0]`, `s = [3/2,0,-3/2]`. -/
theorem C4_assembled_rows_witness :
    StrictIncr [0, 1, 2] ∧
    (SolvesTridiag (CSpline_Clasica.A0 [0, 1, 2]) (CSpline_Clasica.A1 [0, 1, 2])
        (CSpline_Clasica.A2 [0, 1, 2]) (CSpline_Clasica.p [0, 1, 2] [0, 1, 0])
        [3/2, 0, -3/2] ↔
      (2 * ([3/2, 0, -3/2] : List ℚ).getD 0 0 + 1 * ([3/2, 0, -3/2] : List ℚ).getD 1 0 =
        3 * ((([0, 1, 0] : List ℚ).getD 1 0 - ([0, 1, 0] : List ℚ).getD 0 0)
          / (([0, 1, 2] : List ℚ).getD 1 0 - ([0, 1, 2] : List ℚ).getD 0 0))) ∧
      (∀ k, 1 ≤ k → k ≤ ([0, 1, 2] : List ℚ).length - 2 →
        (([0, 1, 2] : List ℚ).getD (k + 1) 0 - ([0, 1, 2] : List ℚ).getD k 0)
            * ([3/2, 0, -3/2] : List ℚ).getD (k - 1) 0
          + 2 * ((([0, 1, 2] : List ℚ).getD k 0 - ([0, 1, 2] : List ℚ).getD (k - 1) 0)
              + (([0, 1, 2] : List ℚ).getD (k + 1) 0 - ([0, 1, 2] : List ℚ).getD k 0))
              * ([3/2, 0, -3/2] : List ℚ).getD k 0
          + (([0, 1, 2] : List ℚ).getD k 0 - ([0, 1, 2] : List ℚ).getD (k - 1) 0)
              * ([3/2, 0, -3/2] : List ℚ).getD (k + 1) 0
        = 3 * ((([0, 1, 0] : List ℚ).getD k 0 - ([0, 1, 0] : List ℚ).getD (k - 1) 0)
                / (([0, 1, 2] : List ℚ).getD k 0 - ([0, 1, 2] : List ℚ).getD (k - 1) 0)
                * (([0, 1, 2] : List ℚ).getD (k + 1) 0 - ([0, 1, 2] : List ℚ).getD k 0)
              + (([0, 1, 0] : List ℚ).getD (k + 1) 0 - ([0, 1, 0] : List ℚ).getD k 0)
                / (([0, 1, 2] : List ℚ).getD (k + 1) 0 - ([0, 1, 2] : List ℚ).getD k 0)
                * (([0, 1, 2] : List ℚ).getD k 0 - ([0, 1, 2] : List ℚ).getD (k - 1) 0))) ∧
      (1 * ([3/2, 0, -3/2] : List ℚ).getD (([0, 1, 2] : List ℚ).length - 2) 0
          + 2 * ([3/2, 0, -3/2] : List ℚ).getD (([0, 1, 2] : List ℚ).length - 1) 0 =
        3 * ((([0, 1, 0] : List ℚ).getD (([0, 1, 2] : List ℚ).length - 1) 0
            - ([0, 1, 0] : List ℚ).getD (([0, 1, 2] : List ℚ).length - 2) 0)
          / (([0, 1, 2] : List ℚ).getD (([0, 1, 2] : List ℚ).length - 1) 0
            - ([0, 1, 2] : List ℚ).getD (([0, 1, 2] : List ℚ).length - 2) 0)))) :=
  ⟨by norm_num [StrictIncr],
   C4_assembled_rows (by norm_num) (by norm_num [StrictIncr]) (by norm_num) (by norm_num)⟩

/-- C3: for strictly increasing nodes and equal-length values (`N ≥ 2`),
if the slope vector solves the assembled tridiagonal system exactly, the
spline constructed from it has matching second derivatives of adjacent
segments at every interior node. -/
theorem C3_c2_continuity {xi yi si : List ℚ} {S : CSpline}
    (hN : 2 ≤ xi.length) (hx : StrictIncr xi)
    (hy : yi.length = xi.length) (hs : si.length = xi.length)
    (hsol : SolvesTridiag (CSpline_Clasica.A0 xi) (CSpline_Clasica.A1 xi)
      (CSpline_Clasica.A2 xi) (CSpline_Clasica.p xi yi) si)
    (hmk : CSpline.make xi yi si = some S) :
    ∀ k, 1 ≤ k → k ≤ xi.length - 2 →
      S.segPolySecond (k - 1) (xi.getD k 0) = S.segPolySecond k (xi.getD k 0) := by
  obtain ⟨S', hmk', hSxi, hSyi, hSsi, hal, hbl, hform⟩ := make_spec hy hs
  rw [hmk] at hmk'
  injection hmk' with hS
  subst hS
  intro k h1 hk
  have hrow := ((CSpline_Clasica.solves_iff_rows hN hy hs).mp hsol).2.1 k h1 hk
  obtain ⟨hAk, hBk⟩ := hform k (by omega)
  obtain ⟨hAk1, hBk1⟩ := hform (k - 1) (by omega)
  have ek : k - 1 + 1 = k := by omega
  rw [ek] at hAk1 hBk1
  unfold CSpline.segPolySecond
  rw [hSxi, hAk, hBk, hAk1, hBk1]
  have hne1 : xi.getD k 0 - xi.getD (k - 1) 0 ≠ 0 :=
    sub_ne_zero.mpr (ne_of_gt (strictIncr_getD_lt hx (by omega) (by omega)))
  have hne2 : xi.getD (k + 1) 0 - xi.getD k 0 ≠ 0 :=
    sub_ne_zero.mpr (ne_of_gt (strictIncr_getD_lt hx (by omega) (by omega)))
  linear_combination second_deriv_match (si.getD (k - 1) 0) (si.getD k 0)
    (si.getD (k + 1) 0) (yi.getD k 0 - yi.getD (k - 1) 0)
    (yi.getD (k + 1) 0 - yi.getD k 0) (xi.getD k 0 - xi.getD (k - 1) 0)
    (xi.getD (k + 1) 0 - xi.getD k 0) hne1 hne2 hrow

/-- Witness for C3 at `x = [0,1,2]`, `y = [0,1,0]`, solved slopes
`s = [3/2,0,-3/2]`. -/
theorem C3_c2_continuity_witness :
    StrictIncr [0, 1, 2] ∧
    SolvesTridiag (CSpline_Clasica.A0 [0, 1, 2]) (CSpline_Clasica.A1 [0, 1, 2])
      (CSpline_Clasica.A2 [0, 1, 2]) (CSpline_Clasica.p [0, 1, 2] [0, 1, 0])
      [3/2, 0, -3/2] ∧
    ∀ k, 1 ≤ k → k ≤ ([0, 1, 2] : List ℚ).length - 2 →
      (⟨[0, 1, 2], [0, 1, 0], [3/2, 0, -3/2], [0, -3/2], [-1/2, 1/2]⟩ :
          CSpline).segPolySecond (k - 1) (([0, 1, 2] : List ℚ).getD k 0)
        = (⟨[0, 1, 2], [0, 1, 0], [3/2, 0, -3/2], [0, -3/2], [-1/2, 1/2]⟩ :
          CSpline).segPolySecond k (([0, 1, 2] : List ℚ).getD k 0) :=
  ⟨by norm_num [StrictIncr],
   by
    norm_num [SolvesTridiag, CSpline_Clasica.A0, CSpline_Clasica.A1, CSpline_Clasica.A2,
      CSpline_Clasica.p, CSpline_Clasica.p0, npdiff]
    intro k hk
    interval_cases k <;> norm_num [List.range_succ],
   @C3_c2_continuity [0, 1, 2] [0, 1, 0] [3/2, 0, -3/2]
     ⟨[0, 1, 2], [0, 1, 0], [3/2, 0, -3/2], [0, -3/2], [-1/2, 1/2]⟩
     (by norm_num) (by norm_num [StrictIncr]) (by norm_num) (by norm_num)
     (by
       norm_num [SolvesTridiag, CSpline_Clasica.A0, CSpline_Clasica.A1, CSpline_Clasica.A2,
         CSpline_Clasica.p, CSpline_Clasica.p0, npdiff]
       intro k hk
       interval_cases k <;> norm_num [List.range_succ])
     (by norm_num [CSpline.make, bop, npdiff, scalarMul, npsq])⟩

/-- C5 counterexample: for `x = [0,1,2]`, `y = [0,1,0]` the final
right-hand side passed to the solver is `[3, 0, -3]`; its entry at row
`N-1 = 2` is `-3`, which differs from its entry at row `N-2 = 1`,
which is `0`. -/
theorem C5_counterexample :
    ¬ ((CSpline_Clasica.p [0, 1, 2] [0, 1, 0]).getD (([0, 1, 2] : List ℚ).length - 1) 0 =
       (CSpline_Clasica.p [0, 1, 2] [0, 1, 0]).getD (([0, 1, 2] : List ℚ).length - 2) 0) := by
  norm_num [CSpline_Clasica.p, CSpline_Clasica.p0, npdiff, List.range_succ]

/-- C5 (amended): the assignment `p[-1] = p[-2]` runs before the interior
right-hand-side update, so in the final system the entry at row `N-1`
equals the PRE-UPDATE entry at row `N-2`, namely `3*dy_{N-2}/dx_{N-2}`;
it equals the final entry at row `N-2` when `N = 2`, but not in general
for `N ≥ 3`. -/
theorem C5_last_rhs {xi yi : List ℚ}
    (hN : 2 ≤ xi.length) (hx : StrictIncr xi) (hy : yi.length = xi.length) :
    (CSpline_Clasica.p xi yi).getD (xi.length - 1) 0 =
      3 * (yi.getD (xi.length - 1) 0 - yi.getD (xi.length - 2) 0)
        / (xi.getD (xi.length - 1) 0 - xi.getD (xi.length - 2) 0) ∧
    (CSpline_Clasica.p xi yi).getD (xi.length - 1) 0 =
      (CSpline_Clasica.p0 xi yi).getD (xi.length - 2) 0 ∧
    (xi.length = 2 →
      (CSpline_Clasica.p xi yi).getD (xi.length - 1) 0 =
        (CSpline_Clasica.p xi yi).getD (xi.length - 2) 0) := by
  have hmain : (CSpline_Clasica.p xi yi).getD (xi.length - 1) 0 =
      3 * (yi.getD (xi.length - 1) 0 - yi.getD (xi.length - 2) 0)
        / (xi.getD (xi.length - 1) 0 - xi.getD (xi.length - 2) 0) := by
    rw [CSpline_Clasica.p_getD hy hN (by omega), if_neg (by omega),
      CSpline_Clasica.p0_getD_last hy hN]
  refine ⟨hmain, ?_, ?_⟩
  · rw [hmain, CSpline_Clasica.p0_getD hy (by omega : xi.length - 2 + 1 < xi.length)]
    have e2 : xi.length - 2 + 1 = xi.length - 1 := by omega
    rw [e2]
  · intro h2
    rw [hmain]
    rw [CSpline_Clasica.p_getD hy hN (by omega), if_neg (by omega),
      CSpline_Clasica.p0_getD hy (by omega : xi.length - 2 + 1 < xi.length)]
    have e2 : xi.length - 2 + 1 = xi.length - 1 := by omega
    rw [e2]

/-- Witness for the amended C5 at `x = [0,1,2]`, `y = [0,1,0]`. -/
theorem C5_last_rhs_witness :
    StrictIncr [0, 1, 2] ∧
    ((CSpline_Clasica.p [0, 1, 2] [0, 1, 0]).getD (([0, 1, 2] : List ℚ).length - 1) 0 =
      3 * (([0, 1, 0] : List ℚ).getD (([0, 1, 2] : List ℚ).length - 1) 0
          - ([0, 1, 0] : List ℚ).getD (([0, 1, 2] : List ℚ).length - 2) 0)
        / (([0, 1, 2] : List ℚ).getD (([0, 1, 2] : List ℚ).length - 1) 0
          - ([0, 1, 2] : List ℚ).getD (([0, 1, 2] : List ℚ).length - 2) 0) ∧
    (CSpline_Clasica.p [0, 1, 2] [0, 1, 0]).getD (([0, 1, 2] : List ℚ).length - 1) 0 =
      (CSpline_Clasica.p0 [0, 1, 2] [0, 1, 0]).getD (([0, 1, 2] : List ℚ).length - 2) 0 ∧
    (([0, 1, 2] : List ℚ).length = 2 →
      (CSpline_Clasica.p [0, 1, 2] [0, 1, 0]).getD (([0, 1, 2] : List ℚ).length - 1) 0 =
        (CSpline_Clasica.p [0, 1, 2] [0, 1, 0]).getD (([0, 1, 2] : List ℚ).length - 2) 0)) :=
  ⟨by norm_num [StrictIncr],
   C5_last_rhs (by norm_num) (by norm_num [StrictIncr]) (by norm_num)⟩

/-- C6: for every constructed spline with `N ≥ 2` strictly increasing
nodes and every query `q`, evaluation returns the cubic of the segment
whose index is the rightmost insertion point of `q` minus one, clamped to
`[0, N-2]`; a query below `x_0` returns segment 0's cubic with negative
`dx = q - x_0`; a query at or above `x_{N-1}` returns segment `N-2`'s
cubic with `dx = q - x_{N-2} ≥ x_{N-1} - x_{N-2}`.  Evaluation is a total
function of the model, so it never fails on out-of-domain input. -/
theorem C6_lookup_clamp_extrapolation {S : CSpline} (q : ℚ)
    (hN : 2 ≤ S.xi.length) (hx : StrictIncr S.xi) :
    S.eval q = S.segHorner (segIdx S.xi q) q ∧
    segIdx S.xi q ≤ S.xi.length - 2 ∧
    (q < S.xi.getD 0 0 →
      segIdx S.xi q = 0 ∧ q - S.xi.getD 0 0 < 0 ∧ S.eval q = S.segHorner 0 q) ∧
    (S.xi.getD (S.xi.length - 1) 0 ≤ q →
      segIdx S.xi q = S.xi.length - 2 ∧
      S.xi.getD (S.xi.length - 1) 0 - S.xi.getD (S.xi.length - 2) 0
        ≤ q - S.xi.getD (S.xi.length - 2) 0 ∧
      S.eval q = S.segHorner (S.xi.length - 2) q) := by
  refine ⟨rfl, segIdx_le hN q, ?_, ?_⟩
  · intro hq
    have hidx := segIdx_of_lt_head hx hN hq
    exact ⟨hidx, by linarith, by simp only [CSpline.eval, hidx]⟩
  · intro hq
    have hidx := segIdx_of_ge_last hx hN hq
    exact ⟨hidx, by linarith, by simp only [CSpline.eval, hidx]⟩

/-- Witness for C6 on a concrete spline, instantiated at the
out-of-domain query `q = 5`. -/
theorem C6_lookup_clamp_extrapolation_witness :
    StrictIncr [0, 1, 2] ∧
    ((⟨[0, 1, 2], [0, 1, 0], [3/2, 0, -3/2], [0, -3/2], [-1/2, 1/2]⟩ : CSpline).eval 5 =
      (⟨[0, 1, 2], [0, 1, 0], [3/2, 0, -3/2], [0, -3/2], [-1/2, 1/2]⟩ : CSpline).segHorner
        (segIdx [0, 1, 2] 5) 5 ∧
    segIdx [0, 1, 2] 5 ≤ ([0, 1, 2] : List ℚ).length - 2 ∧
    ((5 : ℚ) < ([0, 1, 2] : List ℚ).getD 0 0 →
      segIdx [0, 1, 2] 5 = 0 ∧ (5 : ℚ) - ([0, 1, 2] : List ℚ).getD 0 0 < 0 ∧
      (⟨[0, 1, 2], [0, 1, 0], [3/2, 0, -3/2], [0, -3/2], [-1/2, 1/2]⟩ : CSpline).eval 5 =
        (⟨[0, 1, 2], [0, 1, 0], [3/2, 0, -3/2], [0, -3/2], [-1/2, 1/2]⟩ :
          CSpline).segHorner 0 5) ∧
    (([0, 1, 2] : List ℚ).getD (([0, 1, 2] : List ℚ).length - 1) 0 ≤ (5 : ℚ) →
      segIdx [0, 1, 2] 5 = ([0, 1, 2] : List ℚ).length - 2 ∧
      ([0, 1, 2] : List ℚ).getD (([0, 1, 2] : List ℚ).length - 1) 0
          - ([0, 1, 2] : List ℚ).getD (([0, 1, 2] : List ℚ).length - 2) 0
        ≤ (5 : ℚ) - ([0, 1, 2] : List ℚ).getD (([0, 1, 2] : List ℚ).length - 2) 0 ∧
      (⟨[0, 1, 2], [0, 1, 0], [3/2, 0, -3/2], [0, -3/2], [-1/2, 1/2]⟩ : CSpline).eval 5 =
        (⟨[0, 1, 2], [0, 1, 0], [3/2, 0, -3/2], [0, -3/2], [-1/2, 1/2]⟩ :
          CSpline).segHorner (([0, 1, 2] : List ℚ).length - 2) 5)) :=
  ⟨by norm_num [StrictIncr],
   @C6_lookup_clamp_extrapolation
     ⟨[0, 1, 2], [0, 1, 0], [3/2, 0, -3/2], [0, -3/2], [-1/2, 1/2]⟩ 5
     (by norm_num) (by norm_num [StrictIncr])⟩

/-- The flat-buffer pipeline is the elementwise map of scalar
evaluation. -/
lemma evalVec_eq_map (S : CSpline) (qs : List ℚ) :
    S.evalVec qs = qs.map S.eval := by
  induction qs with
  | nil => rfl
  | cons q qs ih =>
    simp only [CSpline.evalVec, List.map_cons, List.zipWith_cons_cons] at ih ⊢
    exact congrArg (List.cons _) ih

/-- C9: for every constructed spline, evaluating a batch of query points
of any shape returns a result of the same shape, and each element of the
result equals the scalar evaluation of the corresponding query element. -/
theorem C9_vectorized_eval (S : CSpline) (q : NDArr) :
    (S.evalND q).shape = q.shape ∧ (S.evalND q).data = q.data.map S.eval :=
  ⟨rfl, evalVec_eq_map S q.data⟩

/-- C7 counterexample: the nodes `[1, 1/2, 2]` are not strictly
increasing, yet construction succeeds and returns a spline object — the
constructor contains no monotonicity validation and no `InvalidNodes`
error exists in the code. -/
theorem C7_counterexample :
    ¬ StrictIncr [1, 1/2, 2] ∧
    CSpline.make [1, 1/2, 2] [0, 0, 0] [0, 0, 0] =
      some ⟨[1, 1/2, 2], [0, 0, 0], [0, 0, 0], [0, 0], [0, 0]⟩ := by
  constructor
  · norm_num [StrictIncr]
  · norm_num [CSpline.make, bop, npdiff, scalarMul, npsq]

/-- C7 (amended): construction performs no validation of the node
sequence: for any inputs of equal length — strictly increasing or not —
`CSpline` construction succeeds and returns a spline object; no
`InvalidNodes` failure exists. -/
theorem C7_no_monotonicity_validation {xi yi si : List ℚ}
    (hy : yi.length = xi.length) (hs : si.length = xi.length) :
    (CSpline.make xi yi si).isSome = true := by
  obtain ⟨S, hmk, _⟩ := make_spec hy hs
  rw [hmk]
  rfl

/-- Witness for the amended C7 at the claim's own error trigger
`[1.0, 0.5, 2.0]`. -/
theorem C7_no_monotonicity_validation_witness :
    ([0, 0, 0] : List ℚ).length = ([1, 1/2, 2] : List ℚ).length ∧
    (CSpline.make [1, 1/2, 2] [0, 0, 0] [0, 0, 0]).isSome = true :=
  ⟨by norm_num, C7_no_monotonicity_validation (by norm_num) (by norm_num)⟩

/-- C8 counterexample: a node sequence of length 3 with a value sequence
of length 2 (and slopes of length 3) does not fail: numpy length-1
broadcasting makes the construction succeed silently, producing
coefficient arrays of length 2 — no `ShapeMismatch` error exists in the
code. -/
theorem C8_counterexample :
    ([0, 1] : List ℚ).length ≠ ([0, 1, 2] : List ℚ).length ∧
    CSpline.make [0, 1, 2] [0, 1] [0, 0, 0] =
      some ⟨[0, 1, 2], [0, 1], [0, 0, 0], [3, 3], [-2, -2]⟩ := by
  constructor
  · norm_num
  · norm_num [CSpline.make, bop, npdiff, scalarMul, npsq]

/-- C8 (amended): construction performs no shape validation: mismatched
lengths whose elementwise arithmetic is numpy-broadcastable (here value
differences of length 1 against node differences of length 2) construct
successfully; only non-broadcastable combinations fail, and then with
numpy's generic broadcast error, not a dedicated `ShapeMismatch`. -/
theorem C8_broadcast_behavior :
    (CSpline.make [0, 1, 2] [0, 1] [0, 0, 0]).isSome = true ∧
    CSpline.make [0, 1, 2, 3] [0, 1, 2] [0, 0, 0, 0] = none := by
  constructor
  · norm_num [CSpline.make, bop, npdiff, scalarMul, npsq]
  · norm_num [CSpline.make, bop, npdiff, scalarMul, npsq]

/-- Cancellation `c*(α*d)/d = c*α` for `d ≠ 0` (pure field algebra). -/
lemma mul_div_cancel_triple (c a d : ℚ) (hd : d ≠ 0) : c * (a * d) / d = c * a := by
  field_simp
  ring

/-- C10: if the values lie on an affine function `y_i = α·x_i + β` and
the slope vector solves the assembled continuity system exactly, then the
solved slopes are all `α`, every quadratic and cubic coefficient is zero,
and evaluation returns `α·q + β` for every query `q`, inside or outside
the node range. -/
theorem C10_affine_reproduction {xi yi si : List ℚ} {S : CSpline} (α β : ℚ)
    (hN : 2 ≤ xi.length) (hx : StrictIncr xi)
    (hy : yi.length = xi.length) (hs : si.length = xi.length)
    (haff : ∀ i, i < xi.length → yi.getD i 0 = α * xi.getD i 0 + β)
    (hsol : SolvesTridiag (CSpline_Clasica.A0 xi) (CSpline_Clasica.A1 xi)
      (CSpline_Clasica.A2 xi) (CSpline_Clasica.p xi yi) si)
    (hmk : CSpline.make xi yi si = some S) :
    (∀ i, i < xi.length → si.getD i 0 = α) ∧
    (∀ i, i + 1 < xi.length → S.ai.getD i 0 = 0 ∧ S.bi.getD i 0 = 0) ∧
    (∀ q : ℚ, S.eval q = α * q + β) := by
  have rows := (CSpline_Clasica.solves_iff_rows hN hy hs).mp hsol
  -- the three row families, simplified using the affine values
  have h0' : 2 * si.getD 0 0 + si.getD 1 0 = 3 * α := by
    have h := rows.1
    have e01 : yi.getD 1 0 - yi.getD 0 0 = α * (xi.getD 1 0 - xi.getD 0 0) := by
      rw [haff 1 (by omega), haff 0 (by omega)]; ring
    have hne : xi.getD 1 0 - xi.getD 0 0 ≠ 0 :=
      sub_ne_zero.mpr (ne_of_gt (strictIncr_getD_lt hx (by omega) (by omega)))
    rw [e01, mul_div_cancel_triple 3 α _ hne] at h
    exact h
  have hl' : si.getD (xi.length - 2) 0 + 2 * si.getD (xi.length - 1) 0 = 3 * α := by
    have h := rows.2.2
    have eL : yi.getD (xi.length - 1) 0 - yi.getD (xi.length - 2) 0
        = α * (xi.getD (xi.length - 1) 0 - xi.getD (xi.length - 2) 0) := by
      rw [haff (xi.length - 1) (by omega), haff (xi.length - 2) (by omega)]; ring
    have hne : xi.getD (xi.length - 1) 0 - xi.getD (xi.length - 2) 0 ≠ 0 :=
      sub_ne_zero.mpr (ne_of_gt (strictIncr_getD_lt hx (by omega) (by omega)))
    rw [eL, mul_div_cancel_triple 3 α _ hne] at h
    exact h
  have hI' : ∀ k, 1 ≤ k → k ≤ xi.length - 2 →
      (xi.getD (k + 1) 0 - xi.getD k 0) * si.getD (k - 1) 0
        + 2 * ((xi.getD k 0 - xi.getD (k - 1) 0) + (xi.getD (k + 1) 0 - xi.getD k 0))
            * si.getD k 0
        + (xi.getD k 0 - xi.getD (k - 1) 0) * si.getD (k + 1) 0
      = 3 * α * (xi.getD k 0 - xi.getD (k - 1) 0)
        + 3 * α * (xi.getD (k + 1) 0 - xi.getD k 0) := by
    intro k h1 hk
    have h := rows.2.1 k h1 hk
    have e2 : yi.getD (k + 1) 0 - yi.getD k 0
        = α * (xi.getD (k + 1) 0 - xi.getD k 0) := by
      rw [haff (k + 1) (by omega), haff k (by omega)]; ring
    have e1 : yi.getD k 0 - yi.getD (k - 1) 0
        = α * (xi.getD k 0 - xi.getD (k - 1) 0) := by
      rw [haff k (by omega), haff (k - 1) (by omega)]; ring
    have hne1 : xi.getD k 0 - xi.getD (k - 1) 0 ≠ 0 :=
      sub_ne_zero.mpr (ne_of_gt (strictIncr_getD_lt hx (by omega) (by omega)))
    have hne2 : xi.getD (k + 1) 0 - xi.getD k 0 ≠ 0 :=
      sub_ne_zero.mpr (ne_of_gt (strictIncr_getD_lt hx (by omega) (by omega)))
    rw [e1, e2, mul_div_cancel_triple 3 α _ hne2,
      mul_div_cancel_triple 3 α _ hne1] at h
    linarith [h]
  -- maximum-principle uniqueness: every solved slope equals α
  have hNne : (Finset.range xi.length).Nonempty :=
    ⟨0, Finset.mem_range.mpr (by omega)⟩
  obtain ⟨m, hmmem, hmmax⟩ :=
    Finset.exists_max_image (Finset.range xi.length) (fun i => |si.getD i 0 - α|) hNne
  rw [Finset.mem_range] at hmmem
  have hmax : ∀ j, j < xi.length → |si.getD j 0 - α| ≤ |si.getD m 0 - α| :=
    fun j hj => hmmax j (Finset.mem_range.mpr hj)
  have hM0 : |si.getD m 0 - α| ≤ 0 := by
    rcases Nat.eq_zero_or_pos m with rfl | hmpos
    · have ht1 : si.getD 1 0 - α = -(2 * (si.getD 0 0 - α)) := by linear_combination h0'
      have hh := hmax 1 (by omega)
      rw [ht1, abs_neg, abs_mul, abs_of_pos (by norm_num : (0:ℚ) < 2)] at hh
      linarith [abs_nonneg (si.getD 0 0 - α)]
    · rcases Nat.lt_or_ge m (xi.length - 1) with hmlt | hmge
      · have h1m : 1 ≤ m := hmpos
        have hkm : m ≤ xi.length - 2 := by omega
        have hI := hI' m h1m hkm
        have hpos1 : (0:ℚ) < xi.getD m 0 - xi.getD (m - 1) 0 :=
          sub_pos.mpr (strictIncr_getD_lt hx (by omega) (by omega))
        have hpos2 : (0:ℚ) < xi.getD (m + 1) 0 - xi.getD m 0 :=
          sub_pos.mpr (strictIncr_getD_lt hx (by omega) (by omega))
        have key : (xi.getD (m + 1) 0 - xi.getD m 0) * (si.getD (m - 1) 0 - α)
            + (xi.getD m 0 - xi.getD (m - 1) 0) * (si.getD (m + 1) 0 - α)
            = -(2 * ((xi.getD m 0 - xi.getD (m - 1) 0) + (xi.getD (m + 1) 0 - xi.getD m 0))
                * (si.getD m 0 - α)) := by
          linear_combination hI
        have habs1 : 2 * ((xi.getD m 0 - xi.getD (m - 1) 0)
              + (xi.getD (m + 1) 0 - xi.getD m 0)) * |si.getD m 0 - α|
            = |(xi.getD (m + 1) 0 - xi.getD m 0) * (si.getD (m - 1) 0 - α)
              + (xi.getD m 0 - xi.getD (m - 1) 0) * (si.getD (m + 1) 0 - α)| := by
          rw [key, abs_neg, abs_mul, abs_of_pos (by linarith : (0:ℚ)
            < 2 * ((xi.getD m 0 - xi.getD (m - 1) 0) + (xi.getD (m + 1) 0 - xi.getD m 0)))]
        have habs2 : |(xi.getD (m + 1) 0 - xi.getD m 0) * (si.getD (m - 1) 0 - α)
              + (xi.getD m 0 - xi.getD (m - 1) 0) * (si.getD (m + 1) 0 - α)|
            ≤ (xi.getD (m + 1) 0 - xi.getD m 0) * |si.getD m 0 - α|
              + (xi.getD m 0 - xi.getD (m - 1) 0) * |si.getD m 0 - α| :=
          calc |(xi.getD (m + 1) 0 - xi.getD m 0) * (si.getD (m - 1) 0 - α)
                + (xi.getD m 0 - xi.getD (m - 1) 0) * (si.getD (m + 1) 0 - α)|
              ≤ |(xi.getD (m + 1) 0 - xi.getD m 0) * (si.getD (m - 1) 0 - α)|
                + |(xi.getD m 0 - xi.getD (m - 1) 0) * (si.getD (m + 1) 0 - α)| :=
                abs_add _ _
            _ = (xi.getD (m + 1) 0 - xi.getD m 0) * |si.getD (m - 1) 0 - α|
                + (xi.getD m 0 - xi.getD (m - 1) 0) * |si.getD (m + 1) 0 - α| := by
                rw [abs_mul, abs_mul, abs_of_pos hpos2, abs_of_pos hpos1]
            _ ≤ (xi.getD (m + 1) 0 - xi.getD m 0) * |si.getD m 0 - α|
                + (xi.getD m 0 - xi.getD (m - 1) 0) * |si.getD m 0 - α| :=
                add_le_add
                  (mul_le_mul_of_nonneg_left (hmax (m - 1) (by omega)) hpos2.le)
                  (mul_le_mul_of_nonneg_left (hmax (m + 1) (by omega)) hpos1.le)
        have hcomb := habs1.trans_le habs2
        by_contra hMc
        push_neg at hMc
        have h1M := mul_pos hpos1 hMc
        have h2M := mul_pos hpos2 hMc
        nlinarith [hcomb]
      · have hme : m = xi.length - 1 := by omega
        subst hme
        have ht : si.getD (xi.length - 2) 0 - α
            = -(2 * (si.getD (xi.length - 1) 0 - α)) := by linear_combination hl'
        have hh := hmax (xi.length - 2) (by omega)
        rw [ht, abs_neg, abs_mul, abs_of_pos (by norm_num : (0:ℚ) < 2)] at hh
        linarith [abs_nonneg (si.getD (xi.length - 1) 0 - α)]
  have hall : ∀ i, i < xi.length → si.getD i 0 = α := by
    intro i hi2
    have h1 := (hmax i hi2).trans hM0
    have h2 : |si.getD i 0 - α| = 0 := le_antisymm h1 (abs_nonneg _)
    have := abs_eq_zero.mp h2
    linarith [this]
  -- coefficients vanish
  obtain ⟨S', hmk', hSxi, hSyi, hSsi, hal, hbl, hform⟩ := make_spec hy hs
  rw [hmk] at hmk'
  injection hmk' with hS
  subst hS
  have hdx : ∀ i, i + 1 < xi.length → (0:ℚ) < xi.getD (i + 1) 0 - xi.getD i 0 :=
    fun i h => sub_pos.mpr (strictIncr_getD_lt hx (by omega) h)
  have hcoef : ∀ i, i + 1 < xi.length → S.ai.getD i 0 = 0 ∧ S.bi.getD i 0 = 0 := by
    intro i hi2
    obtain ⟨hA, hB⟩ := hform i hi2
    have hyy : yi.getD (i + 1) 0 - yi.getD i 0 = α * (xi.getD (i + 1) 0 - xi.getD i 0) := by
      rw [haff (i + 1) (by omega), haff i (by omega)]; ring
    have hne : xi.getD (i + 1) 0 - xi.getD i 0 ≠ 0 := ne_of_gt (hdx i hi2)
    constructor
    · rw [hA, hyy, hall i (by omega), hall (i + 1) (by omega),
        mul_div_cancel_triple 3 α _ hne,
        show 3 * α - α - 2 * α = 0 by ring, zero_div]
    · rw [hB, hyy, hall i (by omega), hall (i + 1) (by omega),
        mul_div_cancel_triple 2 α _ hne,
        show α + α - 2 * α = 0 by ring, zero_div]
  refine ⟨hall, hcoef, ?_⟩
  intro q
  have hidx : segIdx xi q ≤ xi.length - 2 := segIdx_le hN q
  unfold CSpline.eval CSpline.segHorner
  rw [hSxi]
  have hiN : segIdx xi q < xi.length := by omega
  have hi1N : segIdx xi q + 1 < xi.length := by omega
  obtain ⟨hA0, hB0⟩ := hcoef (segIdx xi q) hi1N
  rw [hSyi, hSsi, hA0, hB0, haff (segIdx xi q) hiN, hall (segIdx xi q) hiN]
  ring

/-- Witness for C10 at `x = [0,1,2]`, affine values `y = [0,1,2]`
(`α = 1`, `β = 0`), solved slopes `s = [1,1,1]`, queries `-7` and `9`. -/
theorem C10_affine_reproduction_witness :
    StrictIncr [0, 1, 2] ∧
    SolvesTridiag (CSpline_Clasica.A0 [0, 1, 2]) (CSpline_Clasica.A1 [0, 1, 2])
      (CSpline_Clasica.A2 [0, 1, 2]) (CSpline_Clasica.p [0, 1, 2] [0, 1, 2])
      [1, 1, 1] ∧
    ((∀ i, i < ([0, 1, 2] : List ℚ).length → ([1, 1, 1] : List ℚ).getD i 0 = 1) ∧
    (∀ i, i + 1 < ([0, 1, 2] : List ℚ).length →
      (⟨[0, 1, 2], [0, 1, 2], [1, 1, 1], [0, 0], [0, 0]⟩ : CSpline).ai.getD i 0 = 0 ∧
      (⟨[0, 1, 2], [0, 1, 2], [1, 1, 1], [0, 0], [0, 0]⟩ : CSpline).bi.getD i 0 = 0) ∧
    (∀ q : ℚ,
      (⟨[0, 1, 2], [0, 1, 2], [1, 1, 1], [0, 0], [0, 0]⟩ : CSpline).eval q = 1 * q + 0)) :=
  ⟨by norm_num [StrictIncr],
   by
    norm_num [SolvesTridiag, CSpline_Clasica.A0, CSpline_Clasica.A1, CSpline_Clasica.A2,
      CSpline_Clasica.p, CSpline_Clasica.p0, npdiff]
    intro k hk
    interval_cases k <;> norm_num [List.range_succ],
   @C10_affine_reproduction [0, 1, 2] [0, 1, 2] [1, 1, 1]
     ⟨[0, 1, 2], [0, 1, 2], [1, 1, 1], [0, 0], [0, 0]⟩ 1 0
     (by norm_num) (by norm_num [StrictIncr]) (by norm_num) (by norm_num)
     (by
       intro i hi
       norm_num at hi
       interval_cases i <;> norm_num)
     (by
       norm_num [SolvesTridiag, CSpline_Clasica.A0, CSpline_Clasica.A1, CSpline_Clasica.A2,
         CSpline_Clasica.p, CSpline_Clasica.p0, npdiff]
       intro k hk
       interval_cases k <;> norm_num [List.range_succ])
     (by norm_num [CSpline.make, bop, npdiff, scalarMul, npsq])⟩

end Splines
